import Mathlib

/-!
# MCP4716 10-bit DAC driver (`mcp4716.c`)

A shallow embedding of the driver's three entry points and its probe routine.

* C `int` values are `Int`; the bit operators of the source are the `Int`
  operators `<<<`, `>>>`, `Int.land`, `Int.lor`.
* A store into a `u8` cell is `u8 x = x mod 2^8`, a store into the `u16`
  field `dac_value` is `u16 x = x mod 2^16`; both are kept as `Nat`.
* The bus is external.  `i2c_master_send` is a function from the client handle
  and the buffer handed over to the completion code it reports; every result
  carries the list of buffers that were handed to it, so "no send happened" is
  observable.  `i2c_master_recv` is given by its completion code and the
  contents of `inbuf` after the call.
-/

namespace MCP4716

/-! ## Constants of the kernel headers used by the driver -/

/-- `EINVAL` of `errno-base.h`. -/
def EINVAL : Int := 22

/-- `EIO` of `errno-base.h`. -/
def EIO : Int := 5

/-- `ENOMEM` of `errno-base.h`. -/
def ENOMEM : Int := 12

/-- `IIO_VAL_INT` of `linux/iio/types.h`. -/
def IIO_VAL_INT : Int := 1

/-- `IIO_CHAN_INFO_RAW`, the first enumerator of `enum iio_chan_info_enum`. -/
def IIO_CHAN_INFO_RAW : Int := 0

/-! ## Machine integers -/

/-- Conversion of an `int` to `u8` (a store into a `u8` cell). -/
def u8 (x : Int) : Nat := (x % 256).toNat

/-- Conversion of an `int` to `u16` (a store into a `u16` field). -/
def u16 (x : Int) : Nat := (x % 65536).toNat

/-! ## Data model -/

/-- `struct mcp4716_data`: the bus client handle and the cached `u16 dac_value`. -/
structure mcp4716_data where
  client : Nat
  dac_value : Nat
deriving DecidableEq, Repr

/-- Outcome of `mcp4716_set_value`: the `int` it returns and the buffers it
handed to `i2c_master_send`, oldest first. -/
structure SetResult where
  ret : Int
  sent : List (List Nat)
deriving DecidableEq, Repr

/-- Outcome of `mcp4716_read_raw`: the `int` it returns and the content of `*val`
after the call. -/
structure ReadResult where
  ret : Int
  val : Int
deriving DecidableEq, Repr

/-- Outcome of `mcp4716_write_raw`: the `int` it returns, the private data after
the call and the buffers handed to `i2c_master_send`. -/
structure WriteResult where
  ret : Int
  data : mcp4716_data
  sent : List (List Nat)
deriving DecidableEq, Repr

/-- Outcome of `mcp4716_probe`: the `int` it returns, the private data of the
device left registered (if any), whether `iio_device_register` was called and
whether `iio_device_free` was called. -/
structure ProbeResult where
  ret : Int
  dev : Option mcp4716_data
  register_called : Bool
  freed : Bool
deriving DecidableEq, Repr

/-! ## The driver -/

/-- `mcp4716_set_value` (lines 38-58). -/
def mcp4716_set_value (i2c_master_send : Nat → List Nat → Int)
    (data : mcp4716_data) (val : Int) : SetResult :=
  if val ≥ ((1 : Int) <<< 10) ∨ val < 0 then
    { ret := -EINVAL, sent := [] }
  else
    let val := val <<< 2
    let outbuf0 := u8 (Int.land (val >>> 8) 0xf)
    let outbuf1 := u8 (Int.land val 0xfc)
    let ret := i2c_master_send data.client [outbuf0, outbuf1]
    if ret < 0 then
      { ret := ret, sent := [[outbuf0, outbuf1]] }
    else if ret ≠ 2 then
      { ret := - EIO, sent := [[outbuf0, outbuf1]] }
    else
      { ret := 0, sent := [[outbuf0, outbuf1]] }

/-- `mcp4716_read_raw` (lines 60-72); `val` is the content of `*val` before the
call. -/
def mcp4716_read_raw (data : mcp4716_data) (val : Int) (mask : Int) : ReadResult :=
  if mask = IIO_CHAN_INFO_RAW then
    { ret := IIO_VAL_INT, val := (data.dac_value : Int) }
  else
    { ret := -EINVAL, val := val }

/-- `mcp4716_write_raw` (lines 74-92). -/
def mcp4716_write_raw (i2c_master_send : Nat → List Nat → Int)
    (data : mcp4716_data) (val : Int) (mask : Int) : WriteResult :=
  if mask = IIO_CHAN_INFO_RAW then
    let r := mcp4716_set_value i2c_master_send data val
    { ret := r.ret, data := { data with dac_value := u16 val }, sent := r.sent }
  else
    { ret := -EINVAL, data := data, sent := [] }

/-- `mcp4716_probe` (lines 100-146).  `iio_device_alloc` tells whether the
allocation succeeded, `i2c_master_recv` is the completion code of the 3-byte
receive together with the three cells of `inbuf` after it, and
`iio_device_register` is the code registration reports. -/
def mcp4716_probe (client : Nat) (iio_device_alloc : Bool)
    (i2c_master_recv : Int × Nat × Nat × Nat) (iio_device_register : Int) : ProbeResult :=
  if iio_device_alloc = false then
    { ret := -ENOMEM, dev := none, register_called := false, freed := false }
  else
    let err := i2c_master_recv.1
    let inbuf1 := i2c_master_recv.2.2.1 % 256
    let inbuf2 := i2c_master_recv.2.2.2 % 256
    if err < 0 then
      { ret := err, dev := none, register_called := false, freed := true }
    else
      let data : mcp4716_data :=
        { client := client
          dac_value := u16 (Int.lor ((inbuf1 : Int) <<< 2) ((inbuf2 : Int) >>> 6)) }
      let err := iio_device_register
      if err ≠ 0 then
        { ret := err, dev := none, register_called := true, freed := true }
      else
        { ret := 0, dev := some data, register_called := true, freed := false }

/-- Write frame of `mcp4716_set_value` (lines 47-49) for the argument `val`:
`outbuf[0]` and `outbuf[1]` after `val <<= 2`. -/
def outbuf (val : Int) : List Nat :=
  [u8 (Int.land ((val <<< 2) >>> 8) 0xf), u8 (Int.land (val <<< 2) 0xfc)]

/-! ## Traces of calls on an attached channel -/

/-- One call through the channel's entry points with the RAW mask: a `set`
(`mcp4716_write_raw`) with its argument and the completion code the bus reports
if a send is issued, or a `get` (`mcp4716_read_raw`). -/
inductive Call where
  | set (val : Int) (completion : Int)
  | get
deriving DecidableEq, Repr

/-- Runs one call; returns the private data after it and the `int` the caller
observes (the return code of a `set`, the value read by a `get`). -/
def step (data : mcp4716_data) : Call → mcp4716_data × Int
  | Call.set val completion =>
      let w := mcp4716_write_raw (fun _ _ => completion) data val IIO_CHAN_INFO_RAW
      (w.data, w.ret)
  | Call.get => (data, (mcp4716_read_raw data 0 IIO_CHAN_INFO_RAW).val)

/-- Runs a sequence of calls, oldest first; returns the private data at the end
and everything the caller observed. -/
def run (data : mcp4716_data) : List Call → mcp4716_data × List Int
  | [] => (data, [])
  | c :: cs =>
      let s := step data c
      let r := run s.1 cs
      (r.1, s.2 :: r.2)

/-- Attaches with `mcp4716_probe` (allocation and registration succeeding, the
receive given by `i2c_master_recv`) and then runs `calls` on the registered
device; `none` when the probe leaves no device. -/
def attach_run (client : Nat) (i2c_master_recv : Int × Nat × Nat × Nat)
    (calls : List Call) : Option (List Int) :=
  match (mcp4716_probe client true i2c_master_recv 0).dev with
  | some d => some (run d calls).2
  | none => none

/-! ## Auxiliary facts -/

theorem shl_one_ten : ((1 : Int) <<< 10) = 1024 := by decide

set_option maxRecDepth 1000000 in
theorem outbuf_nat : ∀ n < 1024,
    outbuf (n : Nat) = [(n >>> 6) &&& 0xF, (n &&& 0x3F) <<< 2] ∧
    ((n >>> 6) &&& 0xF) >>> 4 = 0 ∧ ((n &&& 0x3F) <<< 2) &&& 3 = 0 ∧
    256 * ((n >>> 6) &&& 0xF) + (n &&& 0x3F) <<< 2 = 4 * n := by
  decide

theorem set_value_guard (val : Int) (h0 : 0 ≤ val) (h1 : val ≤ 1023) :
    ¬ (val ≥ ((1 : Int) <<< 10) ∨ val < 0) := by
  rw [shl_one_ten]; omega

theorem set_value_sent (i2c_master_send : Nat → List Nat → Int) (data : mcp4716_data)
    (val : Int) (h0 : 0 ≤ val) (h1 : val ≤ 1023) :
    (mcp4716_set_value i2c_master_send data val).sent = [outbuf val] := by
  unfold mcp4716_set_value outbuf
  rw [if_neg (set_value_guard val h0 h1)]
  dsimp only
  split_ifs <;> rfl

theorem set_value_ret (i2c_master_send : Nat → List Nat → Int) (data : mcp4716_data)
    (val : Int) (h0 : 0 ≤ val) (h1 : val ≤ 1023) :
    (mcp4716_set_value i2c_master_send data val).ret =
      if i2c_master_send data.client (outbuf val) < 0 then
        i2c_master_send data.client (outbuf val)
      else if i2c_master_send data.client (outbuf val) ≠ 2 then - EIO else 0 := by
  unfold mcp4716_set_value outbuf
  rw [if_neg (set_value_guard val h0 h1)]
  dsimp only
  split_ifs <;> rfl

theorem set_value_reject (i2c_master_send : Nat → List Nat → Int) (data : mcp4716_data)
    (val : Int) (h : val < 0 ∨ 1023 < val) :
    mcp4716_set_value i2c_master_send data val = { ret := -EINVAL, sent := [] } := by
  have hg : val ≥ ((1 : Int) <<< 10) ∨ val < 0 := by
    rw [shl_one_ten]; omega
  unfold mcp4716_set_value
  rw [if_pos hg]

set_option maxRecDepth 1000000 in
theorem shl2_lor_small : ∀ a < 256, ∀ q < 4, (a <<< 2) ||| q = 4 * a + q := by
  decide

theorem probe_decode (b1 b2 : Nat) (h1 : b1 < 256) (h2 : b2 < 256) :
    u16 (Int.lor (((b1 % 256 : Nat) : Int) <<< 2) (((b2 % 256 : Nat) : Int) >>> 6)) =
      (b1 <<< 2) ||| (b2 >>> 6) ∧
    (b1 <<< 2) ||| (b2 >>> 6) = 4 * b1 + b2 / 64 := by
  have hq : b2 >>> 6 = b2 / 64 := by rw [Nat.shiftRight_eq_div_pow]
  have hlt : b2 / 64 < 4 := by omega
  have hsum : (b1 <<< 2) ||| (b2 >>> 6) = 4 * b1 + b2 / 64 := by
    rw [hq]; exact shl2_lor_small b1 h1 _ hlt
  refine ⟨?_, hsum⟩
  rw [Nat.mod_eq_of_lt h1, Nat.mod_eq_of_lt h2]
  have e1 : ((b1 : Int) <<< 2) = ((b1 <<< 2 : Nat) : Int) := Int.shiftLeft_coe_nat b1 2
  have e2 : ((b2 : Int) >>> 6) = ((b2 >>> 6 : Nat) : Int) := rfl
  rw [e1, e2]
  have e3 : Int.lor ((b1 <<< 2 : Nat) : Int) ((b2 >>> 6 : Nat) : Int)
      = (((b1 <<< 2) ||| (b2 >>> 6) : Nat) : Int) := rfl
  rw [e3, hsum]
  unfold u16
  omega

theorem probe_ok (client : Nat) (n : Int) (b0 b1 b2 : Nat) (hn : 0 ≤ n) :
    mcp4716_probe client true (n, b0, b1, b2) 0 =
      { ret := 0
        dev := some { client := client
                      dac_value := u16 (Int.lor (((b1 % 256 : Nat) : Int) <<< 2)
                        (((b2 % 256 : Nat) : Int) >>> 6)) }
        register_called := true
        freed := false } := by
  have hn2 : ¬ n < 0 := by omega
  simp [mcp4716_probe, hn2]

theorem u16_of_small (v : Int) (h0 : 0 ≤ v) (h1 : v ≤ 1023) : ((u16 v : Nat) : Int) = v := by
  unfold u16
  omega

set_option maxRecDepth 1000000 in
theorem reframe_nat : ∀ n < 1024,
    (((256 * ((n >>> 6) &&& 0xF) + ((n &&& 0x3F) <<< 2)) >>> 4) &&& 0xFF) < 256 ∧
    ((((256 * ((n >>> 6) &&& 0xF) + ((n &&& 0x3F) <<< 2)) >>> 2) &&& 3) <<< 6) < 256 ∧
    ((((256 * ((n >>> 6) &&& 0xF) + ((n &&& 0x3F) <<< 2)) >>> 4) &&& 0xFF) <<< 2) |||
      (((((256 * ((n >>> 6) &&& 0xF) + ((n &&& 0x3F) <<< 2)) >>> 2) &&& 3) <<< 6) >>> 6) = n := by
  decide

/-! ## Claims -/

/-- C1 (encode layout): for every `val` with `0 ≤ val ≤ 1023` the one buffer
`mcp4716_set_value` hands to the transport is `[byte0, byte1]` with
`byte0 = (val >> 6) & 0xF` and `byte1 = (val & 0x3F) << 2`; the high nibble of
`byte0` and the low two bits of `byte1` are zero and `256*byte0 + byte1 = 4*val`.
The codes 0, 1023 and 512 give `[0x00,0x00]`, `[0x0F,0xFC]` and `[0x08,0x00]`. -/
theorem C1_encode_layout (i2c_master_send : Nat → List Nat → Int) (data : mcp4716_data)
    (val : Int) (h0 : 0 ≤ val) (h1 : val ≤ 1023) :
    (∃ byte0 byte1 : Nat,
      (mcp4716_set_value i2c_master_send data val).sent = [[byte0, byte1]] ∧
      byte0 = ((val.toNat >>> 6) &&& 0xF) ∧
      byte1 = ((val.toNat &&& 0x3F) <<< 2) ∧
      byte0 >>> 4 = 0 ∧ byte1 &&& 3 = 0 ∧
      ((256 * byte0 + byte1 : Nat) : Int) = 4 * val) ∧
    (mcp4716_set_value i2c_master_send data 0).sent = [[0x00, 0x00]] ∧
    (mcp4716_set_value i2c_master_send data 1023).sent = [[0x0F, 0xFC]] ∧
    (mcp4716_set_value i2c_master_send data 512).sent = [[0x08, 0x00]] := by
  refine ⟨?_, ?_, ?_, ?_⟩
  · obtain ⟨n, rfl⟩ := Int.eq_ofNat_of_zero_le h0
    have hn : n < 1024 := by omega
    obtain ⟨hf, hhi, hlo, hsum⟩ := outbuf_nat n hn
    refine ⟨(n >>> 6) &&& 0xF, (n &&& 0x3F) <<< 2, ?_, ?_, ?_, hhi, hlo, ?_⟩
    · rw [set_value_sent _ _ _ h0 h1, hf]
    · rw [Int.toNat_ofNat]
    · rw [Int.toNat_ofNat]
    · rw [hsum]; push_cast; ring
  · rw [set_value_sent _ _ _ (by decide) (by decide)]; decide
  · rw [set_value_sent _ _ _ (by decide) (by decide)]; decide
  · rw [set_value_sent _ _ _ (by decide) (by decide)]; decide

/-- Witness of C1 at `val = 300` on a bus that accepts both bytes. -/
theorem C1_encode_layout_witness :
    (0 : Int) ≤ 300 ∧ (300 : Int) ≤ 1023 ∧
    (mcp4716_set_value (fun _ _ => 2) { client := 0, dac_value := 0 } 300).sent
      = [[0x04, 0xB0]] := by
  refine ⟨by decide, by decide, ?_⟩
  obtain ⟨⟨byte0, byte1, hs, hb0, hb1, -⟩, -⟩ :=
    C1_encode_layout (fun _ _ => 2) { client := 0, dac_value := 0 } 300 (by decide) (by decide)
  rw [hs, hb0, hb1]
  decide

/-- C2 (round trip): for every `v` in `[0,1023]` and every `b0`, let `[e0, e1]`
be the frame `mcp4716_set_value` sends for `v` and `W = 256*e0 + e1`; with
`highbits = (W >> 4) & 0xFF` and `lowbits = (W >> 2) & 3`, a probe whose receive
delivers `[b0, highbits, lowbits << 6]` stores exactly `v` in `dac_value`. -/
theorem C2_round_trip (i2c_master_send : Nat → List Nat → Int) (data : mcp4716_data)
    (client b0 : Nat) (v : Int) (h0 : 0 ≤ v) (h1 : v ≤ 1023) :
    ∃ e0 e1 : Nat,
      (mcp4716_set_value i2c_master_send data v).sent = [[e0, e1]] ∧
      ∃ d : mcp4716_data,
        (mcp4716_probe client true
          (3, b0, ((256 * e0 + e1) >>> 4) &&& 0xFF, (((256 * e0 + e1) >>> 2) &&& 3) <<< 6)
          0).dev = some d ∧
        (d.dac_value : Int) = v := by
  obtain ⟨n, rfl⟩ := Int.eq_ofNat_of_zero_le h0
  have hn : n < 1024 := by omega
  obtain ⟨hf, -⟩ := outbuf_nat n hn
  obtain ⟨hhi, hlo, hdec⟩ := reframe_nat n hn
  refine ⟨(n >>> 6) &&& 0xF, (n &&& 0x3F) <<< 2, ?_, ?_⟩
  · rw [set_value_sent _ _ _ h0 h1, hf]
  · rw [probe_ok client 3 b0 _ _ (by decide)]
    refine ⟨_, rfl, ?_⟩
    dsimp only
    rw [(probe_decode _ _ hhi hlo).1, hdec]

/-- Witness of C2 at `v = 1023`, `b0 = 0xC0`. -/
theorem C2_round_trip_witness :
    (0 : Int) ≤ 1023 ∧ (1023 : Int) ≤ 1023 ∧
    ∃ e0 e1 : Nat,
      (mcp4716_set_value (fun _ _ => 2) { client := 1, dac_value := 0 } 1023).sent
        = [[e0, e1]] ∧
      ∃ d : mcp4716_data,
        (mcp4716_probe 1 true
          (3, 0xC0, ((256 * e0 + e1) >>> 4) &&& 0xFF, (((256 * e0 + e1) >>> 2) &&& 3) <<< 6)
          0).dev = some d ∧
        (d.dac_value : Int) = 1023 :=
  ⟨by decide, by decide,
    C2_round_trip (fun _ _ => 2) { client := 1, dac_value := 0 } 1 0xC0 1023
      (by decide) (by decide)⟩

/-- C3 (attach decode): when the receive of `mcp4716_probe` succeeds (completion
code not negative), delivers the bytes `[b0, b1, b2]`, and registration succeeds,
the first `mcp4716_read_raw` with the RAW mask returns `IIO_VAL_INT` and the
value `(b1 << 2) | (b2 >> 6)`, which is `4*b1 + b2/64`; the outcome of the probe
is the same for every `b0`. -/
theorem C3_attach_decode (client : Nat) (n : Int) (b0 b1 b2 : Nat) (x : Int)
    (hn : 0 ≤ n) (hb1 : b1 < 256) (hb2 : b2 < 256) :
    (∃ d : mcp4716_data,
      (mcp4716_probe client true (n, b0, b1, b2) 0).dev = some d ∧
      mcp4716_read_raw d x IIO_CHAN_INFO_RAW =
        { ret := IIO_VAL_INT, val := (((b1 <<< 2) ||| (b2 >>> 6) : Nat) : Int) }) ∧
    ((b1 <<< 2) ||| (b2 >>> 6)) = 4 * b1 + b2 / 64 ∧
    ∀ b0' : Nat,
      mcp4716_probe client true (n, b0', b1, b2) 0 =
        mcp4716_probe client true (n, b0, b1, b2) 0 := by
  obtain ⟨hdec, hsum⟩ := probe_decode b1 b2 hb1 hb2
  refine ⟨?_, hsum, ?_⟩
  · rw [probe_ok client n b0 b1 b2 hn]
    refine ⟨_, rfl, ?_⟩
    rw [hdec]
    simp [mcp4716_read_raw]
  · intro b0'
    rw [probe_ok client n b0 b1 b2 hn, probe_ok client n b0' b1 b2 hn]

/-- Witness of C3 at the read-back `[0xC0, 0x80, 0x40]`, which decodes to 513. -/
theorem C3_attach_decode_witness :
    (0 : Int) ≤ 3 ∧ 0x80 < 256 ∧ 0x40 < 256 ∧
    ∃ d : mcp4716_data,
      (mcp4716_probe 1 true (3, 0xC0, 0x80, 0x40) 0).dev = some d ∧
      mcp4716_read_raw d 0 IIO_CHAN_INFO_RAW = { ret := IIO_VAL_INT, val := 513 } := by
  refine ⟨by decide, by decide, by decide, ?_⟩
  obtain ⟨d, hd, hr⟩ :=
    (C3_attach_decode 1 3 0xC0 0x80 0x40 0 (by decide) (by decide) (by decide)).1
  exact ⟨d, hd, by rw [hr]; decide⟩

/-- C4 (write-confirm-then-commit): for every prior state and every `v` in
`[0,1023]`, if `i2c_master_send` reports 2 for the frame of `v`, then
`mcp4716_write_raw` with the RAW mask returns 0 and the following
`mcp4716_read_raw` with the RAW mask returns `IIO_VAL_INT` with the value `v`. -/
theorem C4_write_confirm_then_commit (i2c_master_send : Nat → List Nat → Int)
    (data : mcp4716_data) (v x : Int) (h0 : 0 ≤ v) (h1 : v ≤ 1023)
    (h2 : i2c_master_send data.client (outbuf v) = 2) :
    (mcp4716_write_raw i2c_master_send data v IIO_CHAN_INFO_RAW).ret = 0 ∧
    mcp4716_read_raw (mcp4716_write_raw i2c_master_send data v IIO_CHAN_INFO_RAW).data
        x IIO_CHAN_INFO_RAW = { ret := IIO_VAL_INT, val := v } := by
  have hr := set_value_ret i2c_master_send data v h0 h1
  rw [h2] at hr
  have hu := u16_of_small v h0 h1
  constructor
  · simp only [mcp4716_write_raw, if_true]
    rw [hr]; decide
  · simp only [mcp4716_write_raw, mcp4716_read_raw, if_true]
    rw [hu]

/-- Witness of C4 at the spec's instance: a cached 512, `set(300)` on a bus that
accepts 2 bytes, then `get()`. -/
theorem C4_write_confirm_then_commit_witness :
    (0 : Int) ≤ 300 ∧ (300 : Int) ≤ 1023 ∧
    (fun (_ : Nat) (_ : List Nat) => (2 : Int)) 7 (outbuf 300) = 2 ∧
    (mcp4716_write_raw (fun _ _ => 2) { client := 7, dac_value := 512 } 300
      IIO_CHAN_INFO_RAW).ret = 0 ∧
    mcp4716_read_raw
      (mcp4716_write_raw (fun _ _ => 2) { client := 7, dac_value := 512 } 300
        IIO_CHAN_INFO_RAW).data 0 IIO_CHAN_INFO_RAW = { ret := IIO_VAL_INT, val := 300 } :=
  ⟨by decide, by decide, rfl,
    C4_write_confirm_then_commit (fun _ _ => 2) { client := 7, dac_value := 512 } 300 0
      (by decide) (by decide) rfl⟩

/-- C5 (range rejection without I/O): for every `val` with `val < 0` or
`val > 1023`, `mcp4716_set_value` returns `-EINVAL` having handed nothing to
`i2c_master_send`, and so does `mcp4716_write_raw` with the RAW mask. -/
theorem C5_range_rejection_no_io (i2c_master_send : Nat → List Nat → Int)
    (data : mcp4716_data) (val : Int) (h : val < 0 ∨ 1023 < val) :
    mcp4716_set_value i2c_master_send data val = { ret := -EINVAL, sent := [] } ∧
    (mcp4716_write_raw i2c_master_send data val IIO_CHAN_INFO_RAW).ret = -EINVAL ∧
    (mcp4716_write_raw i2c_master_send data val IIO_CHAN_INFO_RAW).sent = [] := by
  have hs := set_value_reject i2c_master_send data val h
  refine ⟨hs, ?_, ?_⟩
  · simp only [mcp4716_write_raw, if_true]
    rw [hs]
  · simp only [mcp4716_write_raw, if_true]
    rw [hs]

/-- Witness of C5 at `val = 1024`. -/
theorem C5_range_rejection_no_io_witness :
    ((1024 : Int) < 0 ∨ (1023 : Int) < 1024) ∧
    (mcp4716_write_raw (fun _ _ => 2) { client := 7, dac_value := 512 } 1024
      IIO_CHAN_INFO_RAW).ret = -22 ∧
    (mcp4716_write_raw (fun _ _ => 2) { client := 7, dac_value := 512 } 1024
      IIO_CHAN_INFO_RAW).sent = [] :=
  ⟨by decide,
    (C5_range_rejection_no_io (fun _ _ => 2) { client := 7, dac_value := 512 } 1024
      (by decide)).2⟩

/-- C6 (range rejection leaves the cache unchanged) fails on the code: with 512
cached, `mcp4716_write_raw` with the RAW mask and `val = 1024` returns `-EINVAL`
and sends nothing, yet the following read returns 1024; with `val = -1` it
returns 65535.  The store `data->dac_value = val` of line 84 is not guarded by
the result of `mcp4716_set_value`. -/
theorem C6_rejected_set_overwrites_cache :
    (mcp4716_read_raw { client := 7, dac_value := 512 } 0 IIO_CHAN_INFO_RAW).val = 512 ∧
    mcp4716_write_raw (fun _ _ => 2) { client := 7, dac_value := 512 } 1024 IIO_CHAN_INFO_RAW
      = { ret := -EINVAL, data := { client := 7, dac_value := 1024 }, sent := [] } ∧
    (mcp4716_read_raw
      (mcp4716_write_raw (fun _ _ => 2) { client := 7, dac_value := 512 } 1024
        IIO_CHAN_INFO_RAW).data 0 IIO_CHAN_INFO_RAW).val = 1024 ∧
    mcp4716_write_raw (fun _ _ => 2) { client := 7, dac_value := 512 } (-1) IIO_CHAN_INFO_RAW
      = { ret := -EINVAL, data := { client := 7, dac_value := 65535 }, sent := [] } ∧
    (mcp4716_read_raw
      (mcp4716_write_raw (fun _ _ => 2) { client := 7, dac_value := 512 } (-1)
        IIO_CHAN_INFO_RAW).data 0 IIO_CHAN_INFO_RAW).val = 65535 := by
  decide

/-- C7 (a failed write does not commit) fails on the code: with 512 cached,
`set(300)` on a bus that accepts 1 byte returns `-EIO`, and on a bus that
reports the error `-121` returns `-121`, yet in both cases the following read
returns 300, not 512. -/
theorem C7_failed_write_commits :
    mcp4716_write_raw (fun _ _ => 1) { client := 7, dac_value := 512 } 300 IIO_CHAN_INFO_RAW
      = { ret := - EIO, data := { client := 7, dac_value := 300 }, sent := [[0x04, 0xB0]] } ∧
    (mcp4716_read_raw
      (mcp4716_write_raw (fun _ _ => 1) { client := 7, dac_value := 512 } 300
        IIO_CHAN_INFO_RAW).data 0 IIO_CHAN_INFO_RAW).val = 300 ∧
    mcp4716_write_raw (fun _ _ => -121) { client := 7, dac_value := 512 } 300 IIO_CHAN_INFO_RAW
      = { ret := -121, data := { client := 7, dac_value := 300 }, sent := [[0x04, 0xB0]] } ∧
    (mcp4716_read_raw
      (mcp4716_write_raw (fun _ _ => -121) { client := 7, dac_value := 512 } 300
        IIO_CHAN_INFO_RAW).data 0 IIO_CHAN_INFO_RAW).val = 300 := by
  decide

/-- C8 (result of set): `mcp4716_set_value` returns 0 exactly when
`0 ≤ val ≤ 1023` and the send of the frame reports 2; for `val` in range it
returns the completion code itself when that is negative and `-EIO` when it is
non-negative and not 2; out of range it returns `-EINVAL`; and `-EIO` and
`-EINVAL` are negative, so no failure is reported as 0. -/
theorem C8_set_value_result (i2c_master_send : Nat → List Nat → Int)
    (data : mcp4716_data) (val : Int) :
    ((mcp4716_set_value i2c_master_send data val).ret = 0 ↔
      (0 ≤ val ∧ val ≤ 1023 ∧ i2c_master_send data.client (outbuf val) = 2)) ∧
    (0 ≤ val → val ≤ 1023 → i2c_master_send data.client (outbuf val) < 0 →
      (mcp4716_set_value i2c_master_send data val).ret
        = i2c_master_send data.client (outbuf val)) ∧
    (0 ≤ val → val ≤ 1023 → 0 ≤ i2c_master_send data.client (outbuf val) →
      i2c_master_send data.client (outbuf val) ≠ 2 →
      (mcp4716_set_value i2c_master_send data val).ret = - EIO) ∧
    ((val < 0 ∨ 1023 < val) → (mcp4716_set_value i2c_master_send data val).ret = -EINVAL) ∧
    - EIO < 0 ∧ -EINVAL < 0 := by
  have hio : - EIO = -5 := rfl
  have hinv : -EINVAL = -22 := rfl
  refine ⟨?_, ?_, ?_, ?_, by decide, by decide⟩
  · constructor
    · intro h
      by_cases hr : val < 0 ∨ 1023 < val
      · rw [set_value_reject _ _ _ hr, hinv] at h
        exact absurd h (by decide)
      · have h0 : 0 ≤ val := by omega
        have h1 : val ≤ 1023 := by omega
        refine ⟨h0, h1, ?_⟩
        rw [set_value_ret _ _ _ h0 h1] at h
        split_ifs at h with ha hb
        · omega
        · rw [hio] at h; omega
        · omega
    · rintro ⟨h0, h1, h2⟩
      rw [set_value_ret _ _ _ h0 h1, h2]
      decide
  · intro h0 h1 hneg
    rw [set_value_ret _ _ _ h0 h1, if_pos hneg]
  · intro h0 h1 hpos hne
    rw [set_value_ret _ _ _ h0 h1, if_neg (by omega), if_pos hne]
  · intro hr
    rw [set_value_reject _ _ _ hr]

/-- Witness of C8: `set(300)` on a bus that accepts 1 byte returns `-EIO = -5`,
and it is not 0. -/
theorem C8_set_value_result_witness :
    (0 : Int) ≤ 300 ∧ (300 : Int) ≤ 1023 ∧
    (0 : Int) ≤ (fun (_ : Nat) (_ : List Nat) => (1 : Int)) 7 (outbuf 300) ∧
    (fun (_ : Nat) (_ : List Nat) => (1 : Int)) 7 (outbuf 300) ≠ 2 ∧
    (mcp4716_set_value (fun _ _ => 1) { client := 7, dac_value := 512 } 300).ret = -5 :=
  ⟨by decide, by decide, by decide, by decide,
    (C8_set_value_result (fun _ _ => 1) { client := 7, dac_value := 512 } 300).2.2.1
      (by decide) (by decide) (by decide) (by decide)⟩

/-- C9 (cache equals the last successfully written value) fails on the code:
after an attach whose read-back `[0x00, 0x80, 0x00]` decodes to 512, the calls
`get`, `set(1024)`, `get` observe 512, `-EINVAL` and 1024: the second `get`
returns the argument of a `set` that failed, not 512.  The same happens after
`set(300)` with a 1-byte completion, which observes `-EIO` and then 300. -/
theorem C9_cache_follows_failed_set :
    attach_run 7 (3, 0x00, 0x80, 0x00) [Call.get, Call.set 1024 2, Call.get]
      = some [512, -EINVAL, 1024] ∧
    attach_run 7 (3, 0x00, 0x80, 0x00) [Call.get, Call.set 300 1, Call.get]
      = some [512, - EIO, 300] := by
  decide

/-- C10 (cached value stays in `[0,1023]`) fails on the code: after an attach
that decodes 512, `set(-1)` returns `-EINVAL` and the following `get` returns
65535; `set(70000)` returns `-EINVAL` and the following `get` returns
`70000 mod 2^16 = 4464`. -/
theorem C10_cache_leaves_range :
    attach_run 7 (3, 0x00, 0x80, 0x00) [Call.set (-1) 2, Call.get]
      = some [-EINVAL, 65535] ∧
    ¬ ((65535 : Int) ≤ 1023) ∧
    attach_run 7 (3, 0x00, 0x80, 0x00) [Call.set 70000 2, Call.get]
      = some [-EINVAL, 4464] ∧
    ¬ ((4464 : Int) ≤ 1023) := by
  decide

/-- C11 (get is a pure read): for every private data, `mcp4716_read_raw` with
the RAW mask returns `IIO_VAL_INT` (positive, so not an error code) and exactly
the cached `dac_value`; the call takes no transport and returns no new private
data, so as a `get` step it leaves cached value and client handle as they were,
and two `get` calls in a row observe the same value. -/
theorem C11_get_pure_read (data : mcp4716_data) (x y : Int) :
    mcp4716_read_raw data x IIO_CHAN_INFO_RAW
      = { ret := IIO_VAL_INT, val := (data.dac_value : Int) } ∧
    0 < IIO_VAL_INT ∧ IIO_VAL_INT ≠ -EINVAL ∧
    step data Call.get = (data, (data.dac_value : Int)) ∧
    run data [Call.get, Call.get]
      = (data, [(data.dac_value : Int), (data.dac_value : Int)]) ∧
    (mcp4716_read_raw (step data Call.get).1 y IIO_CHAN_INFO_RAW).val
      = (mcp4716_read_raw data x IIO_CHAN_INFO_RAW).val := by
  have hr : ∀ z : Int, mcp4716_read_raw data z IIO_CHAN_INFO_RAW
      = { ret := IIO_VAL_INT, val := (data.dac_value : Int) } := by
    intro z
    simp [mcp4716_read_raw]
  have hs : step data Call.get = (data, (data.dac_value : Int)) := by
    simp only [step]
    rw [hr 0]
  refine ⟨hr x, by decide, by decide, hs, ?_, ?_⟩
  · simp only [run, hs]
  · rw [hs, hr y, hr x]

/-- C12 (attach fails on transport failure): when the allocation succeeded and
the receive of `mcp4716_probe` reports a negative completion code `e`, the probe
returns `e`, does not call `iio_device_register`, calls `iio_device_free`, and
leaves no device. -/
theorem C12_attach_fails_on_recv_error (client : Nat) (e : Int) (b0 b1 b2 : Nat)
    (iio_device_register : Int) (he : e < 0) :
    mcp4716_probe client true (e, b0, b1, b2) iio_device_register
      = { ret := e, dev := none, register_called := false, freed := true } := by
  simp [mcp4716_probe, he]

/-- Witness of C12 at the completion code `-121`. -/
theorem C12_attach_fails_on_recv_error_witness :
    (-121 : Int) < 0 ∧
    mcp4716_probe 7 true (-121, 0, 0, 0) 0
      = { ret := -121, dev := none, register_called := false, freed := true } :=
  ⟨by decide, C12_attach_fails_on_recv_error 7 (-121) 0 0 0 0 (by decide)⟩

/-- C13 (a short read-back is fatal to attach) fails on the code: when the
receive reports 0, 1 or 2 bytes, `mcp4716_probe` still returns 0, calls
`iio_device_register` and leaves a device whose `dac_value` is decoded from
whatever `inbuf` holds (here 1023 from the cells `0xFF, 0xFF`).  Only a negative
completion code is tested at line 128, whereas `mcp4716_set_value` tests its
completion code against the exact count. -/
theorem C13_short_read_back_accepted :
    mcp4716_probe 7 true (1, 0x00, 0xFF, 0xFF) 0
      = { ret := 0, dev := some { client := 7, dac_value := 1023 },
          register_called := true, freed := false } ∧
    mcp4716_probe 7 true (0, 0x00, 0xFF, 0xFF) 0
      = { ret := 0, dev := some { client := 7, dac_value := 1023 },
          register_called := true, freed := false } ∧
    mcp4716_probe 7 true (2, 0x00, 0xFF, 0xFF) 0
      = { ret := 0, dev := some { client := 7, dac_value := 1023 },
          register_called := true, freed := false } := by
  decide

/-- C14 as stated (the read-back `[0x00, 0x08, 0x00]` gives an initial `get` of
512) is false: the first `get` after that attach does not return 512. -/
theorem C14_attach_example_not_512 :
    ¬ (attach_run 7 (3, 0x00, 0x08, 0x00) [Call.get] = some [512]) := by
  decide

/-- C14 amended: when the receive of `mcp4716_probe` returns the bytes
`[0x00, 0x08, 0x00]`, the registered device holds `dac_value = 32` and the
initial `mcp4716_read_raw` with the RAW mask returns 32, which is
`(0x08 << 2) | (0x00 >> 6)`. -/
theorem C14_attach_example_32 :
    mcp4716_probe 7 true (3, 0x00, 0x08, 0x00) 0
      = { ret := 0, dev := some { client := 7, dac_value := 32 },
          register_called := true, freed := false } ∧
    mcp4716_read_raw { client := 7, dac_value := 32 } 0 IIO_CHAN_INFO_RAW
      = { ret := IIO_VAL_INT, val := 32 } ∧
    attach_run 7 (3, 0x00, 0x08, 0x00) [Call.get] = some [32] ∧
    ((0x08 <<< 2) ||| (0x00 >>> 6) : Nat) = 32 := by
  decide

/-! ## Further auxiliary facts -/

theorem write_raw_raw (i2c_master_send : Nat → List Nat → Int) (data : mcp4716_data)
    (val : Int) :
    mcp4716_write_raw i2c_master_send data val IIO_CHAN_INFO_RAW =
      { ret := (mcp4716_set_value i2c_master_send data val).ret
        data := { client := data.client, dac_value := u16 val }
        sent := (mcp4716_set_value i2c_master_send data val).sent } := by
  simp [mcp4716_write_raw]

theorem read_raw_raw (data : mcp4716_data) (x : Int) :
    mcp4716_read_raw data x IIO_CHAN_INFO_RAW
      = { ret := IIO_VAL_INT, val := (data.dac_value : Int) } := by
  simp [mcp4716_read_raw]

theorem decode_int_eq_nat (b1 b2 : Nat) :
    Int.lor ((b1 : Int) <<< 2) ((b2 : Int) >>> 6)
      = (((b1 <<< 2) ||| (b2 >>> 6) : Nat) : Int) := by
  have e1 : ((b1 : Int) <<< 2) = ((b1 <<< 2 : Nat) : Int) := Int.shiftLeft_coe_nat b1 2
  have e2 : ((b2 : Int) >>> 6) = ((b2 >>> 6 : Nat) : Int) := rfl
  rw [e1, e2]
  rfl

set_option maxRecDepth 1000000 in
theorem cross_decode_nat : ∀ n < 1024,
    ((n >>> 6) &&& 0xF) < 256 ∧ ((n &&& 0x3F) <<< 2) < 256 ∧
    ((((n >>> 6) &&& 0xF) <<< 2) ||| (((n &&& 0x3F) <<< 2) >>> 6)) = n >>> 4 ∧
    n >>> 4 = n / 16 ∧ (n >>> 4 = n ↔ n = 0) := by
  decide

set_option maxRecDepth 1000000 in
theorem decode_onto_nat : ∀ v < 1024,
    v >>> 2 < 256 ∧ (v &&& 3) <<< 6 < 256 ∧
    (((v >>> 2) <<< 2) ||| (((v &&& 3) <<< 6) >>> 6)) = v := by
  decide

/-! ## Claims, continued -/

/-- C15 (idempotence of set): for every prior state and every `v` in `[0,1023]`,
two `mcp4716_write_raw` calls with the RAW mask in a row, the send reporting 2
both times, both return 0, leave `get()` equal to `v` after the first and after
the second call (the private data is the same after both), and hand the same
frame to the transport; the frame of `v` is the same for every cached value. -/
theorem C15_set_idempotent (send1 send2 : Nat → List Nat → Int) (data : mcp4716_data)
    (v x : Int) (h0 : 0 ≤ v) (h1 : v ≤ 1023)
    (ha : send1 data.client (outbuf v) = 2) (hb : send2 data.client (outbuf v) = 2) :
    (mcp4716_write_raw send1 data v IIO_CHAN_INFO_RAW).ret = 0 ∧
    (mcp4716_write_raw send2 (mcp4716_write_raw send1 data v IIO_CHAN_INFO_RAW).data v
      IIO_CHAN_INFO_RAW).ret = 0 ∧
    (mcp4716_read_raw (mcp4716_write_raw send1 data v IIO_CHAN_INFO_RAW).data x
      IIO_CHAN_INFO_RAW).val = v ∧
    (mcp4716_read_raw
      (mcp4716_write_raw send2 (mcp4716_write_raw send1 data v IIO_CHAN_INFO_RAW).data v
        IIO_CHAN_INFO_RAW).data x IIO_CHAN_INFO_RAW).val = v ∧
    (mcp4716_write_raw send2 (mcp4716_write_raw send1 data v IIO_CHAN_INFO_RAW).data v
      IIO_CHAN_INFO_RAW).data = (mcp4716_write_raw send1 data v IIO_CHAN_INFO_RAW).data ∧
    (mcp4716_write_raw send2 (mcp4716_write_raw send1 data v IIO_CHAN_INFO_RAW).data v
      IIO_CHAN_INFO_RAW).sent = (mcp4716_write_raw send1 data v IIO_CHAN_INFO_RAW).sent ∧
    (mcp4716_write_raw send1 data v IIO_CHAN_INFO_RAW).sent = [outbuf v] ∧
    ∀ (send : Nat → List Nat → Int) (c : Nat),
      (mcp4716_set_value send { client := data.client, dac_value := c } v).sent
        = [outbuf v] := by
  have hret : ∀ (send : Nat → List Nat → Int) (d : mcp4716_data),
      send d.client (outbuf v) = 2 → (mcp4716_set_value send d v).ret = 0 := by
    intro send d h
    rw [set_value_ret send d v h0 h1, h]
    decide
  have hu := u16_of_small v h0 h1
  simp only [write_raw_raw, read_raw_raw]
  refine ⟨hret send1 data ha, hret send2 _ hb, hu, hu, trivial, ?_, ?_, ?_⟩
  · rw [set_value_sent _ _ _ h0 h1, set_value_sent _ _ _ h0 h1]
  · rw [set_value_sent _ _ _ h0 h1]
  · intro send c
    rw [set_value_sent _ _ _ h0 h1]

/-- Witness of C15 at `v = 300` with 512 cached: both calls send `[0x04, 0xB0]`. -/
theorem C15_set_idempotent_witness :
    (0 : Int) ≤ 300 ∧ (300 : Int) ≤ 1023 ∧
    (fun (_ : Nat) (_ : List Nat) => (2 : Int)) 7 (outbuf 300) = 2 ∧
    (mcp4716_write_raw (fun _ _ => 2)
      (mcp4716_write_raw (fun _ _ => 2) { client := 7, dac_value := 512 } 300
        IIO_CHAN_INFO_RAW).data 300 IIO_CHAN_INFO_RAW).sent
      = (mcp4716_write_raw (fun _ _ => 2) { client := 7, dac_value := 512 } 300
          IIO_CHAN_INFO_RAW).sent ∧
    (mcp4716_write_raw (fun _ _ => 2) { client := 7, dac_value := 512 } 300
      IIO_CHAN_INFO_RAW).sent = [[0x04, 0xB0]] := by
  have h := C15_set_idempotent (fun _ _ => 2) (fun _ _ => 2) { client := 7, dac_value := 512 }
    300 0 (by decide) (by decide) rfl rfl
  exact ⟨by decide, by decide, rfl, h.2.2.2.2.2.1, by decide⟩

/-- C16 (what the cache holds after any write): for every `val`, every prior
private data and every transport, after `mcp4716_write_raw` with the RAW mask
the cached `dac_value` is `val mod 2^16`, the client handle is unchanged, and
the next `mcp4716_read_raw` with the RAW mask returns `val mod 2^16`; this does
not depend on what `mcp4716_set_value` returned. -/
theorem C16_cache_after_write (i2c_master_send : Nat → List Nat → Int)
    (data : mcp4716_data) (val x : Int) :
    ((mcp4716_write_raw i2c_master_send data val IIO_CHAN_INFO_RAW).data.dac_value : Int)
      = val % 2 ^ 16 ∧
    (mcp4716_write_raw i2c_master_send data val IIO_CHAN_INFO_RAW).data.client
      = data.client ∧
    mcp4716_read_raw (mcp4716_write_raw i2c_master_send data val IIO_CHAN_INFO_RAW).data
        x IIO_CHAN_INFO_RAW = { ret := IIO_VAL_INT, val := val % 2 ^ 16 } := by
  have hu : ((u16 val : Nat) : Int) = val % 2 ^ 16 := by
    unfold u16
    omega
  simp only [write_raw_raw, read_raw_raw]
  exact ⟨hu, trivial, by rw [hu]⟩

/-- C17 (the write frame is not the read frame): for every `v` in `[0,1023]` and
every `b0`, a probe whose receive delivers `[b0, e0, e1]`, where `[e0, e1]` is
the frame `mcp4716_set_value` sends for `v`, stores `v >> 4 = v / 16`, and that
equals `v` exactly when `v = 0`. -/
theorem C17_write_frame_read_back (i2c_master_send : Nat → List Nat → Int)
    (data : mcp4716_data) (client b0 : Nat) (v : Int) (h0 : 0 ≤ v) (h1 : v ≤ 1023) :
    ∃ e0 e1 : Nat,
      (mcp4716_set_value i2c_master_send data v).sent = [[e0, e1]] ∧
      ∃ d : mcp4716_data,
        (mcp4716_probe client true (3, b0, e0, e1) 0).dev = some d ∧
        d.dac_value = v.toNat >>> 4 ∧
        (d.dac_value : Int) = v / 16 ∧
        ((d.dac_value : Int) = v ↔ v = 0) := by
  obtain ⟨n, rfl⟩ := Int.eq_ofNat_of_zero_le h0
  have hn : n < 1024 := by omega
  obtain ⟨hf, -⟩ := outbuf_nat n hn
  obtain ⟨he0, he1, hdec, hdiv, hiff⟩ := cross_decode_nat n hn
  refine ⟨(n >>> 6) &&& 0xF, (n &&& 0x3F) <<< 2, ?_, ?_⟩
  · rw [set_value_sent _ _ _ h0 h1, hf]
  · rw [probe_ok client 3 b0 _ _ (by decide)]
    refine ⟨_, rfl, ?_⟩
    dsimp only
    rw [(probe_decode _ _ he0 he1).1, hdec, Int.toNat_ofNat]
    refine ⟨rfl, ?_, ?_⟩
    · rw [hdiv]; norm_cast
    · constructor
      · intro h
        have h2 : n >>> 4 = n := by exact_mod_cast h
        have h3 := hiff.1 h2
        exact_mod_cast h3
      · intro h
        have h2 : n = 0 := by exact_mod_cast h
        have h3 := hiff.2 h2
        exact_mod_cast h3

/-- Witness of C17 at `v = 1023`: the frame `[0x0F, 0xFC]` read back as
`[0x00, 0x0F, 0xFC]` decodes to 63. -/
theorem C17_write_frame_read_back_witness :
    (0 : Int) ≤ 1023 ∧ (1023 : Int) ≤ 1023 ∧
    ∃ e0 e1 : Nat,
      (mcp4716_set_value (fun _ _ => 2) { client := 7, dac_value := 0 } 1023).sent
        = [[e0, e1]] ∧
      ∃ d : mcp4716_data,
        (mcp4716_probe 7 true (3, 0x00, e0, e1) 0).dev = some d ∧
        d.dac_value = 63 := by
  refine ⟨by decide, by decide, ?_⟩
  obtain ⟨e0, e1, hs, d, hd, hv, -⟩ :=
    C17_write_frame_read_back (fun _ _ => 2) { client := 7, dac_value := 0 } 7 0x00 1023
      (by decide) (by decide)
  exact ⟨e0, e1, hs, d, hd, by rw [hv]; decide⟩

/-- C18 (decode is total and bounded): for all bytes `b1`, `b2` a probe whose
receive and registration succeed leaves a device whose `dac_value` is
`(b1 << 2) | (b2 >> 6)`; that value is at most 1023, equals the `int` value of
the expression (the `u16` store truncates nothing), and is the same for every
`b2'` with the same top two bits; and every `v` in `[0,1023]` is stored for some
pair of bytes. -/
theorem C18_decode_total_bounded (client : Nat) (n : Int) (b0 b1 b2 : Nat)
    (hn : 0 ≤ n) (hb1 : b1 < 256) (hb2 : b2 < 256) :
    (∃ d : mcp4716_data,
      (mcp4716_probe client true (n, b0, b1, b2) 0).dev = some d ∧
      d.dac_value = ((b1 <<< 2) ||| (b2 >>> 6)) ∧
      d.dac_value ≤ 1023 ∧
      d.dac_value < 2 ^ 16 ∧
      (d.dac_value : Int) = Int.lor ((b1 : Int) <<< 2) ((b2 : Int) >>> 6)) ∧
    (∀ b2' : Nat, b2' < 256 → b2' / 64 = b2 / 64 →
      mcp4716_probe client true (n, b0, b1, b2') 0
        = mcp4716_probe client true (n, b0, b1, b2) 0) ∧
    (∀ v : Nat, v ≤ 1023 → ∃ c1 c2 : Nat, c1 < 256 ∧ c2 < 256 ∧
      (mcp4716_probe client true (n, b0, c1, c2) 0).dev
        = some { client := client, dac_value := v }) := by
  obtain ⟨hdec, hsum⟩ := probe_decode b1 b2 hb1 hb2
  have hle : (b1 <<< 2) ||| (b2 >>> 6) ≤ 1023 := by
    rw [hsum]; omega
  refine ⟨?_, ?_, ?_⟩
  · rw [probe_ok client n b0 b1 b2 hn]
    refine ⟨_, rfl, ?_, ?_, ?_, ?_⟩
    · exact hdec
    · dsimp only; rw [hdec]; exact hle
    · dsimp only; rw [hdec]; omega
    · dsimp only; rw [hdec, decode_int_eq_nat]
  · intro b2' hb2' hq
    obtain ⟨hdec', hsum'⟩ := probe_decode b1 b2' hb1 hb2'
    rw [probe_ok client n b0 b1 b2 hn, probe_ok client n b0 b1 b2' hn, hdec, hdec',
      hsum, hsum', hq]
  · intro v hv
    obtain ⟨hc1, hc2, hv2⟩ := decode_onto_nat v (by omega)
    refine ⟨v >>> 2, (v &&& 3) <<< 6, hc1, hc2, ?_⟩
    rw [probe_ok client n b0 _ _ hn, (probe_decode _ _ hc1 hc2).1, hv2]

/-- Witness of C18 at the read-back `[0x00, 0xFF, 0xFF]`, which stores 1023. -/
theorem C18_decode_total_bounded_witness :
    (0 : Int) ≤ 3 ∧ 0xFF < 256 ∧
    ∃ d : mcp4716_data,
      (mcp4716_probe 7 true (3, 0x00, 0xFF, 0xFF) 0).dev = some d ∧
      d.dac_value = 1023 := by
  refine ⟨by decide, by decide, ?_⟩
  obtain ⟨d, hd, hv, -⟩ :=
    (C18_decode_total_bounded 7 3 0x00 0xFF 0xFF (by decide) (by decide) (by decide)).1
  exact ⟨d, hd, by rw [hv]; decide⟩

end MCP4716
